import Mathlib

/-!
Verification of the ReAI GitHub-Copilot proxy core (Go sources under
`internal/copilot`, `internal/config`, `pkg/errors`) against its
natural-language specification.

The Go code is shallowly embedded: strings are `List Char`, Go `time.Time`
values are modelled as Unix seconds (`Int`), fallible operations return
`Option`/sum types, and network traffic is supplied through explicit
response oracles.  Every definition is translated from the repository
source; definitions written from the specification's words (for refinement
comparisons) are marked as such in their doc comments.
-/

set_option maxRecDepth 4096

/-- Go strings are modelled as lists of characters. -/
abbrev Str := List Char

/-! ## Basic Go string helpers (package `strings`) -/

/-- Model of Go `strings.Split(s, sep)` for a one-character separator
(the sources only split on ".", ";" and "\n").  `Split("", sep) = [""]`,
and a trailing separator yields a trailing empty field, as in Go. -/
def goSplit (sep : Char) : Str → List Str
  | [] => [[]]
  | c :: cs =>
    let r := goSplit sep cs
    if c = sep then
      [] :: r
    else
      match r with
      | [] => [[c]]
      | h :: t => (c :: h) :: t

/-- Model of Go `strings.SplitN(s, "=", 2)`: split at the first `=` only.
Returns `none` when `s` contains no `=` (Go then returns a one-element
slice, which the caller's `len(kv) == 2` check rejects). -/
def goSplitN2Eq : Str → Option (Str × Str)
  | [] => none
  | c :: cs =>
    if c = '=' then
      some ([], cs)
    else
      match goSplitN2Eq cs with
      | some (k, v) => some (c :: k, v)
      | none => none

/-- Whitespace set trimmed by Go `strings.TrimSpace` (the ASCII portion of
Unicode `White_Space`, plus NEL and NBSP; wider Unicode space characters do
not occur in the tokens handled here). -/
def goIsSpace (c : Char) : Bool :=
  c = ' ' || c = '\t' || c = '\n' || c = Char.ofNat 11 || c = Char.ofNat 12 ||
  c = '\r' || c = Char.ofNat 0x85 || c = Char.ofNat 0xA0

/-- Model of Go `strings.TrimSpace`. -/
def trimSpace (s : Str) : Str :=
  ((s.dropWhile goIsSpace).reverse.dropWhile goIsSpace).reverse

/-- Go `len(s)` on a string counts UTF-8 bytes. -/
def utf8Len (s : Str) : Nat :=
  (s.map Char.utf8Size).sum

/-! ## RFC 3339 timestamp parsing (Go `time.Parse(time.RFC3339, s)`)

Modelled as a conversion to Unix seconds.  The layout accepted is
`yyyy-mm-ddThh:mm:ss[.fff](Z|±hh:mm)` with all component ranges
validated, as Go's strict RFC 3339 parse does.  Fractional seconds are
accepted and discarded (the second-resolution model). -/

/-- Two ASCII digits to a number. -/
def twoDigits : Str → Option (Nat × Str)
  | a :: b :: r =>
    if a.isDigit && b.isDigit then
      some ((a.toNat - 48) * 10 + (b.toNat - 48), r)
    else
      none
  | _ => none

/-- Days in a month of the proleptic Gregorian calendar. -/
def daysInMonth (y m : Nat) : Nat :=
  if m = 2 then
    if y % 4 = 0 && (y % 100 ≠ 0 || y % 400 = 0) then 29 else 28
  else if m = 4 || m = 6 || m = 9 || m = 11 then 30
  else 31

/-- Days since 1970-01-01 of a civil date (Howard Hinnant's algorithm,
restricted to the RFC 3339 year range 0–9999 where all divisions act on
non-negative operands). -/
def daysFromCivil (y m d : Nat) : Int :=
  let y' : Nat := if m ≤ 2 then y + 399 else y + 400
  let era : Nat := y' / 400
  let yoe : Nat := y' % 400
  let mp : Nat := if m ≤ 2 then m + 9 else m - 3
  let doy : Nat := (153 * mp + 2) / 5 + d - 1
  let doe : Nat := yoe * 365 + yoe / 4 - yoe / 100 + doy
  (era : Int) * 146097 + (doe : Int) - 719468 - 146097

/-- Parse the timezone designator (`Z` or `±hh:mm`); the remaining input
must be empty.  Returns the offset east of UTC in seconds. -/
def parseRFC3339Zone : Str → Option Int
  | ['Z'] => some 0
  | s :: r =>
    if s = '+' || s = '-' then
      match twoDigits r with
      | some (oh, ':' :: r2) =>
        match twoDigits r2 with
        | some (om, []) =>
          if oh ≤ 23 && om ≤ 59 then
            let secs : Int := (oh : Int) * 3600 + (om : Int) * 60
            some (if s = '-' then -secs else secs)
          else
            none
        | _ => none
      | _ => none
    else
      none
  | _ => none

/-- Optional fractional-second part: `.` followed by at least one digit. -/
def dropRFC3339Frac : Str → Option Str
  | '.' :: r =>
    if (r.takeWhile Char.isDigit).isEmpty then none
    else some (r.dropWhile Char.isDigit)
  | r => some r

/-- Model of Go `time.Parse(time.RFC3339, s)` as Unix seconds. -/
def rfc3339ToUnix (s : Str) : Option Int :=
  match s with
  | y1 :: y2 :: y3 :: y4 :: '-' :: r1 =>
    if y1.isDigit && y2.isDigit && y3.isDigit && y4.isDigit then
      let y := ((y1.toNat - 48) * 10 + (y2.toNat - 48)) * 100 +
               (y3.toNat - 48) * 10 + (y4.toNat - 48)
      match twoDigits r1 with
      | some (mo, '-' :: r2) =>
        match twoDigits r2 with
        | some (d, 'T' :: r3) =>
          match twoDigits r3 with
          | some (hh, ':' :: r4) =>
            match twoDigits r4 with
            | some (mi, ':' :: r5) =>
              match twoDigits r5 with
              | some (ss, r6) =>
                if 1 ≤ mo && mo ≤ 12 && 1 ≤ d && d ≤ daysInMonth y mo &&
                   hh ≤ 23 && mi ≤ 59 && ss ≤ 59 then
                  match dropRFC3339Frac r6 with
                  | some r7 =>
                    match parseRFC3339Zone r7 with
                    | some off =>
                      some (daysFromCivil y mo d * 86400 +
                            (hh : Int) * 3600 + (mi : Int) * 60 + (ss : Int) - off)
                    | none => none
                  | none => none
                else
                  none
              | none => none
            | _ => none
          | _ => none
        | _ => none
      | _ => none
    else
      none
  | _ => none

/-! ## Base64 URL decoding (Go `base64.URLEncoding.DecodeString`)

Go's default (non-strict) decoder with mandatory padding: the input, after
ignoring CR and LF characters, must be a sequence of 4-character quanta
over the URL alphabet, with `=` allowed only as one or two trailing pad
characters of the final quantum.  Non-zero trailing bits are accepted, as
in Go's default mode.  Output bytes are `Nat`s below 256. -/

/-- Value of one character of the base64 URL alphabet. -/
def b64Val (c : Char) : Option Nat :=
  if 'A' ≤ c && c ≤ 'Z' then some (c.toNat - 65)
  else if 'a' ≤ c && c ≤ 'z' then some (c.toNat - 97 + 26)
  else if '0' ≤ c && c ≤ '9' then some (c.toNat - 48 + 52)
  else if c = '-' then some 62
  else if c = '_' then some 63
  else none

/-- Decode a stream of 4-character quanta (CR/LF already removed). -/
def b64DecodeQuanta : Str → Option (List Nat)
  | [] => some []
  | a :: b :: c :: d :: rest =>
    match b64Val a, b64Val b with
    | some va, some vb =>
      if c = '=' then
        if d = '=' && rest.isEmpty then
          some [va * 4 + vb / 16]
        else
          none
      else
        match b64Val c with
        | some vc =>
          if d = '=' then
            if rest.isEmpty then
              some [va * 4 + vb / 16, (vb % 16) * 16 + vc / 4]
            else
              none
          else
            match b64Val d with
            | some vd =>
              match b64DecodeQuanta rest with
              | some bs =>
                some ((va * 4 + vb / 16) :: ((vb % 16) * 16 + vc / 4) ::
                      ((vc % 4) * 64 + vd) :: bs)
              | none => none
            | none => none
        | none => none
    | _, _ => none
  | _ => none

/-- Model of Go `base64.URLEncoding.DecodeString` (newlines ignored,
padding required, length must be a multiple of four). -/
def base64UrlDecodeGo (s : Str) : Option (List Nat) :=
  b64DecodeQuanta (s.filter (fun c => !(c = '\r' || c = '\n')))

/-! ## JSON values and parsing (Go `encoding/json`)

A small but faithful model of the subset of `json.Unmarshal` behaviour the
sources rely on.  Numbers record whether their literal is a plain integer
(`num`) or carries a fraction/exponent (`numNonInt`): Go's decoder fails
to store the latter into an `int64` field, which is all the sources ever
ask of a number. -/

inductive Json where
  | null
  | boolean (b : Bool)
  | num (n : Int)
  | numNonInt
  | str (s : Str)
  | arr (elems : List Json)
  | obj (fields : List (Str × Json))
deriving BEq

/-- ASCII hexadecimal digit test. -/
def isHexDigitCh (c : Char) : Bool :=
  c.isDigit || ('a' ≤ c && c ≤ 'f') || ('A' ≤ c && c ≤ 'F')

/-- JSON insignificant whitespace. -/
def jsonWs (c : Char) : Bool :=
  c = ' ' || c = '\t' || c = '\n' || c = '\r'

/-- Skip insignificant whitespace. -/
def skipWs (cs : Str) : Str :=
  cs.dropWhile jsonWs

/-- Parse the body of a JSON string literal (opening quote consumed),
decoding escapes; raw control characters are rejected as in Go. -/
def parseStringBody : Str → Option (Str × Str)
  | [] => none
  | c :: rest =>
    if c = '"' then
      some ([], rest)
    else if c = '\\' then
      match rest with
      | 'u' :: h1 :: h2 :: h3 :: h4 :: r2 =>
        if isHexDigitCh h1 && isHexDigitCh h2 && isHexDigitCh h3 && isHexDigitCh h4 then
          match parseStringBody r2 with
          | some (s, r3) =>
            let hv (h : Char) : Nat :=
              if h.isDigit then h.toNat - 48
              else if 'a' ≤ h then h.toNat - 97 + 10
              else h.toNat - 65 + 10
            some (Char.ofNat (((hv h1 * 16 + hv h2) * 16 + hv h3) * 16 + hv h4) :: s, r3)
          | none => none
        else
          none
      | e :: r2 =>
        let dec : Option Char :=
          if e = '"' then some '"'
          else if e = '\\' then some '\\'
          else if e = '/' then some '/'
          else if e = 'b' then some (Char.ofNat 8)
          else if e = 'f' then some (Char.ofNat 12)
          else if e = 'n' then some '\n'
          else if e = 'r' then some '\r'
          else if e = 't' then some '\t'
          else none
        match dec with
        | some ch =>
          match parseStringBody r2 with
          | some (s, r3) => some (ch :: s, r3)
          | none => none
        | none => none
      | [] => none
    else if c.toNat < 32 then
      none
    else
      match parseStringBody rest with
      | some (s, r2) => some (c :: s, r2)
      | none => none

/-- Digits of an ASCII-decimal literal to a `Nat`. -/
def digitsToNat (ds : Str) : Nat :=
  ds.foldl (fun acc d => acc * 10 + (d.toNat - 48)) 0

/-- Parse the fraction/exponent tail of a JSON number literal.  Returns
whether a fraction or exponent was present together with the rest of the
input; `none` on malformed tails. -/
def parseNumTail (r : Str) : Option (Bool × Str) :=
  let afterFrac : Option (Bool × Str) :=
    match r with
    | '.' :: r2 =>
      if (r2.takeWhile Char.isDigit).isEmpty then none
      else some (true, r2.dropWhile Char.isDigit)
    | _ => some (false, r)
  match afterFrac with
  | none => none
  | some (hasFrac, r3) =>
    match r3 with
    | e :: r4 =>
      if e = 'e' || e = 'E' then
        let r5 := match r4 with
          | s :: r5' => if s = '+' || s = '-' then r5' else r4
          | [] => r4
        if (r5.takeWhile Char.isDigit).isEmpty then none
        else some (true, r5.dropWhile Char.isDigit)
      else
        some (hasFrac, r3)
    | [] => some (hasFrac, r3)

/-- Parse a JSON number literal (leading-zero rule as in the JSON
grammar). -/
def parseNumber (cs : Str) : Option (Json × Str) :=
  let (neg, cs1) := match cs with
    | '-' :: r => (true, r)
    | _ => (false, cs)
  match cs1 with
  | '0' :: r =>
    match parseNumTail r with
    | some (true, r2) => some (Json.numNonInt, r2)
    | some (false, r2) => some (Json.num 0, r2)
    | none => none
  | c :: _ =>
    if c.isDigit then
      let ds := cs1.takeWhile Char.isDigit
      match parseNumTail (cs1.dropWhile Char.isDigit) with
      | some (true, r2) => some (Json.numNonInt, r2)
      | some (false, r2) =>
        some (Json.num (if neg then -(digitsToNat ds : Int) else (digitsToNat ds : Int)), r2)
      | none => none
    else
      none
  | [] => none

/-- Fuel-indexed JSON value parse.  Arrays and objects recurse by
re-inserting their opening bracket in front of the tail after a comma, so
a single self-recursive function covers the whole grammar; fuel strictly
decreases at every call and `length + 1` fuel always suffices. -/
def parseJsonF : Nat → Str → Option (Json × Str)
  | 0, _ => none
  | fuel + 1, cs =>
    match skipWs cs with
    | 'n' :: 'u' :: 'l' :: 'l' :: r => some (Json.null, r)
    | 't' :: 'r' :: 'u' :: 'e' :: r => some (Json.boolean true, r)
    | 'f' :: 'a' :: 'l' :: 's' :: 'e' :: r => some (Json.boolean false, r)
    | '"' :: r =>
      match parseStringBody r with
      | some (s, r2) => some (Json.str s, r2)
      | none => none
    | '[' :: r =>
      match skipWs r with
      | ']' :: r2 => some (Json.arr [], r2)
      | _ =>
        match parseJsonF fuel r with
        | some (e, r2) =>
          match skipWs r2 with
          | ',' :: r3 =>
            match skipWs r3 with
            | ']' :: _ => none
            | _ =>
              match parseJsonF fuel ('[' :: r3) with
              | some (Json.arr es, r4) => some (Json.arr (e :: es), r4)
              | _ => none
          | ']' :: r3 => some (Json.arr [e], r3)
          | _ => none
        | none => none
    | '\x7b' :: r =>
      match skipWs r with
      | '\x7d' :: r2 => some (Json.obj [], r2)
      | '"' :: rk =>
        match parseStringBody rk with
        | some (k, r2) =>
          match skipWs r2 with
          | ':' :: r3 =>
            match parseJsonF fuel r3 with
            | some (v, r4) =>
              match skipWs r4 with
              | ',' :: r5 =>
                match skipWs r5 with
                | '\x7d' :: _ => none
                | _ =>
                  match parseJsonF fuel ('\x7b' :: r5) with
                  | some (Json.obj fs, r6) => some (Json.obj ((k, v) :: fs), r6)
                  | _ => none
              | '\x7d' :: r5 => some (Json.obj [(k, v)], r5)
              | _ => none
            | none => none
          | _ => none
        | none => none
      | _ => none
    | c :: r =>
      if c = '-' || c.isDigit then parseNumber (c :: r) else none
    | [] => none

/-- Parse a complete JSON document: one value with only trailing
whitespace, as `json.Unmarshal` requires. -/
def parseJsonTop (cs : Str) : Option Json :=
  match parseJsonF (cs.length + 1) cs with
  | some (j, r) => if (skipWs r).isEmpty then some j else none
  | none => none

/-! ## `json.Unmarshal` into the source's Go structs

Go matches struct-field keys case-insensitively (exact tag match merely
takes precedence for the same field), processes duplicate keys in document
order with the last assignment winning, leaves a field unchanged on a JSON
`null`, rejects type mismatches with an error, and ignores unknown keys.
A top-level `null` succeeds and leaves the zero-valued struct. -/

/-- ASCII lower-casing, the relevant fragment of Go's `EqualFold` key
comparison (the keys involved are `exp`, `token`, `expires_at`). -/
def asciiLower (c : Char) : Char :=
  if 'A' ≤ c && c ≤ 'Z' then Char.ofNat (c.toNat + 32) else c

/-- Case-insensitive key match against a lowercase field tag. -/
def keyMatches (key : Str) (tag : Str) : Bool :=
  key.map asciiLower == tag

/-- Go `int64` bounds; `encoding/json` fails on literals outside them. -/
def int64Max : Int := 9223372036854775807

/-- Lower `int64` bound. -/
def int64Min : Int := -9223372036854775808

/-- Model of `json.Unmarshal(decoded, &claims)` for
`JWTClaims { Exp int64 \x60json:"exp"\x60 }` (client.go:54): returns the
decoded `Exp` (0 when the key is absent or null), or `none` on any
unmarshalling error. -/
def goUnmarshalJWTClaims (bytes : List Nat) : Option Int :=
  match parseJsonTop (bytes.map Char.ofNat) with
  | some Json.null => some 0
  | some (Json.obj fs) =>
    fs.foldl
      (fun acc kv =>
        match acc with
        | none => none
        | some cur =>
          if keyMatches kv.fst ('e' :: 'x' :: 'p' :: []) then
            match kv.snd with
            | Json.num n => if int64Min ≤ n && n ≤ int64Max then some n else none
            | Json.null => some cur
            | _ => none
          else
            some cur)
      (some 0)
  | _ => none

/-- Model of `json.Unmarshal(resp, &tokenData)` for
`SessionTokenResponse { Token string \x60json:"token"\x60;
ExpiresAt *int64 \x60json:"expires_at"\x60 }` (client.go:48).  Returns the
decoded `Token` ("" when absent); `none` on unmarshalling errors.  The
`ExpiresAt` field is decoded for error behaviour but never read by the
client code. -/
def goUnmarshalSessionTokenResponse (body : Str) : Option Str :=
  match parseJsonTop body with
  | some Json.null => some []
  | some (Json.obj fs) =>
    fs.foldl
      (fun acc kv =>
        match acc with
        | none => none
        | some cur =>
          if keyMatches kv.fst "token".toList then
            match kv.snd with
            | Json.str s => some s
            | Json.null => some cur
            | _ => none
          else if keyMatches kv.fst "expires_at".toList then
            match kv.snd with
            | Json.num n => if int64Min ≤ n && n ≤ int64Max then some cur else none
            | Json.null => some cur
            | _ => none
          else
            some cur)
      (some [])
  | _ => none

/-! ## Credential expiry extraction (`internal/copilot/client.go`) -/

/-- Constant `config.TokenRefreshBufferSeconds` (config.go): refresh 60
seconds before expiry. -/
def TokenRefreshBufferSeconds : Int := 60

/-- Constant `config.DefaultTokenLifetimeSeconds` (config.go), commented
"25 minutes fallback".  No code in the repository references it. -/
def DefaultTokenLifetimeSeconds : Int := 25 * 60

/-- Model of `extractExpValueLegacy` (client.go:265): scan the token as
semicolon-separated `key=value` pairs and return the first `exp` value
that parses as an RFC 3339 timestamp; pairs whose value fails to parse
are passed over and the scan continues. -/
def extractExpValueLegacy (token : Str) : Option Int :=
  (goSplit ';' token).findSome? fun pair =>
    match goSplitN2Eq pair with
    | some (k, v) =>
      if trimSpace k = 'e' :: 'x' :: 'p' :: [] then rfc3339ToUnix (trimSpace v)
      else none
    | none => none

/-- Padding restoration of `extractExpFromJWT` (client.go:242-246):
`padding := 4 - len(payload)%4; if padding != 4 { payload += "="*padding }`. -/
def addB64Padding (payload : Str) : Str :=
  let padding := 4 - payload.length % 4
  if padding ≠ 4 then payload ++ List.replicate padding '=' else payload

/-- Model of `extractExpFromJWT` (client.go:232): split on "."; with
exactly three segments, base64url-decode the padded middle segment and
unmarshal `JWTClaims` from it, returning `time.Unix(claims.Exp, 0)`;
on wrong segment count, decode failure or unmarshal failure, fall back to
`extractExpValueLegacy`.  (The Go function's error return is always nil.) -/
def extractExpFromJWT (token : Str) : Option Int :=
  match goSplit '.' token with
  | [_p0, payload, _p2] =>
    match base64UrlDecodeGo (addB64Padding payload) with
    | none => extractExpValueLegacy token
    | some decoded =>
      match goUnmarshalJWTClaims decoded with
      | none => extractExpValueLegacy token
      | some e => some e
  | _ => extractExpValueLegacy token

/-! ## Session-token state and acquisition (`GetSessionToken`, client.go:186) -/

/-- The mutable `(sessionToken, expiresAt)` pair of `Client`
(client.go:64-65), the state the session-token mutex protects. -/
structure SessionState where
  sessionToken : Str
  expiresAt : Option Int
deriving DecidableEq

/-- Result of one `makeRequest` call against the session-token endpoint,
as seen by `GetSessionToken`: a transport/HTTP error or a response body. -/
inductive ExchangeResult where
  | reqError (msg : Str)
  | ok (body : Str)

/-- Outcome of `GetSessionToken`: an error message or the updated state. -/
inductive TokenOutcome where
  | success (st : SessionState)
  | failure (msg : Str)
deriving DecidableEq

/-- Loop body and retry structure of `GetSessionToken` (client.go:203-228),
over an oracle giving each attempt's exchange result.  Every branch of the
source loop body returns, so the function mirrors that exactly; the second
component counts exchange attempts actually performed. -/
def getSessionTokenLoop (st : SessionState) (resp : Nat → ExchangeResult) :
    Nat → Nat → TokenOutcome × Nat
  | 0, attempt =>
    (TokenOutcome.failure "failed to get session token after retries".toList, attempt)
  | _retries + 1, attempt =>
    match resp attempt with
    | ExchangeResult.reqError msg =>
      (TokenOutcome.failure ("session token request failed: ".toList ++ msg), attempt + 1)
    | ExchangeResult.ok body =>
      match goUnmarshalSessionTokenResponse body with
      | none =>
        (TokenOutcome.failure "failed to parse session token response".toList, attempt + 1)
      | some token =>
        let expiresAt' :=
          match extractExpFromJWT token with
          | some e => some e
          | none => st.expiresAt
        (TokenOutcome.success { sessionToken := token, expiresAt := expiresAt' }, attempt + 1)

/-- Model of `GetSessionToken` with the source's `retries := 3`, starting at the
point where an access token is already in memory (the preceding
file-loading branch is I/O and does not touch the session pair). -/
def getSessionTokenGo (st : SessionState) (resp : Nat → ExchangeResult) :
    TokenOutcome × Nat :=
  getSessionTokenLoop st resp 3 0

/-- Model of `isTokenValid` (client.go:279): an empty session token or an
absent expiry is invalid; otherwise valid iff `now + buffer` is strictly
before the expiry. -/
def isTokenValid (now : Int) (st : SessionState) : Bool :=
  if st.sessionToken = [] || st.expiresAt = none then
    false
  else
    match st.expiresAt with
    | some exp => now + TokenRefreshBufferSeconds < exp
    | none => false

/-! ## Streaming-response reassembly (`internal/copilot/completions.go:87`) -/

/-- Last-occurrence lookup in a decoded JSON object, matching Go's
`map[string]interface\x7b\x7d` semantics where a duplicate key's later
value overwrites the earlier one. -/
def objLookupLast (fs : List (Str × Json)) (key : Str) : Option Json :=
  fs.foldl (fun acc kv => if kv.fst = key then some kv.snd else acc) none

/-- Text contributed by one line of the streaming response: lines starting
with "data: \x7b" have their "data: " marker stripped and the remainder
JSON-decoded; a successful decode contributes the string under
`choices[0].text` when that path exists, and every other line contributes
nothing (decode failures are skipped, not fatal). -/
def streamChunkText (line : Str) : Str :=
  if ("data: \x7b".toList).isPrefixOf line then
    match parseJsonTop (line.drop 6) with
    | some (Json.obj fs) =>
      match objLookupLast fs "choices".toList with
      | some (Json.arr (c :: _)) =>
        match c with
        | Json.obj cf =>
          match objLookupLast cf "text".toList with
          | some (Json.str s) => s
          | _ => []
        | _ => []
      | _ => []
    | _ => []
  else
    []

/-- Model of `parseStreamingResponse` (completions.go:87): split the
response on newlines and accumulate each line's contribution into the
builder, mirroring the source loop; never an error. -/
def parseStreamingResponse (responseText : Str) : Str :=
  (goSplit '\n' responseText).foldl (fun acc line => acc ++ streamChunkText line) []

/-! ## Error taxonomy (`pkg/errors/errors.go`) -/

/-- Model of `APIError` (errors.go): a kind tag, message and HTTP code. -/
structure APIError where
  errType : Str
  message : Str
  code : Nat
deriving DecidableEq

/-- Model of `NewValidationError` (errors.go). -/
def NewValidationError (message : Str) : APIError :=
  { errType := "validation_error".toList
    message := "Request validation failed: ".toList ++ message
    code := 400 }

/-- Model of `NewAuthenticationError` (errors.go). -/
def NewAuthenticationError (message : Str) : APIError :=
  { errType := "authentication_error".toList
    message := "Authentication failed: ".toList ++ message
    code := 401 }

/-- Model of `NewCopilotAPIError` (errors.go). -/
def NewCopilotAPIError (message : Str) : APIError :=
  { errType := "copilot_api_error".toList
    message := "GitHub Copilot API error: ".toList ++ message
    code := 502 }

/-! ## Completion flow (`GetCompletion`, completions.go:24) -/

/-- The caller-controlled fields of `CompletionRequest` that the guarded
path reads (`Temperature float64` is modelled at integer precision; only
its comparison with zero is ever used, and not on any verified path). -/
structure CompletionRequest where
  prompt : Str
  language : Str
  maxTokens : Int
  temperature : Int

/-- Model of `GetCompletion` (completions.go:24) over explicit oracles for
the session-token exchange and the completions endpoint.  Returns the
result, the session state after the call, and the number of upstream HTTP
requests performed. -/
def GetCompletionGo (maxPromptLength : Nat) (st : SessionState) (now : Int)
    (req : CompletionRequest) (tokenResp : Nat → ExchangeResult)
    (completionResp : ExchangeResult) :
    Except APIError Str × SessionState × Nat :=
  if utf8Len req.prompt > maxPromptLength then
    (Except.error (NewValidationError
      ("Prompt too long: ".toList ++ (toString (utf8Len req.prompt)).toList ++
       " characters (max: ".toList ++ (toString maxPromptLength).toList ++ ")".toList)),
     st, 0)
  else
    let ensured : (Except APIError SessionState) × Nat :=
      if isTokenValid now st then (Except.ok st, 0)
      else
        match getSessionTokenGo st tokenResp with
        | (TokenOutcome.success st2, n) => (Except.ok st2, n)
        | (TokenOutcome.failure msg, n) => (Except.error (NewAuthenticationError msg), n)
    match ensured with
    | (Except.error e, n) => (Except.error e, st, n)
    | (Except.ok st2, n) =>
      if st2.sessionToken = [] then
        (Except.error (NewAuthenticationError "No session token available".toList), st2, n)
      else
        match completionResp with
        | ExchangeResult.reqError msg =>
          (Except.error (NewCopilotAPIError ("Completion request failed: ".toList ++ msg)),
           st2, n + 1)
        | ExchangeResult.ok body =>
          (Except.ok (parseStreamingResponse body), st2, n + 1)

/-! ## Device-flow polling (`Setup`, client.go:134-173) -/

/-- Model of `AccessTokenResponse` (client.go:42). -/
structure AccessTokenResponse where
  accessToken : Option Str
  error : Option Str

/-- One tick of the `Setup` polling loop as seen by the client: the token
request failed, its body failed to unmarshal, or it produced a response. -/
inductive PollResult where
  | reqError
  | parseError
  | resp (r : AccessTokenResponse)

/-- The polling loop of `Setup` (client.go:134-173) over a finite list of
tick results, counting polls.  Request and parse failures and
`authorization_pending` continue the loop; an access token returns it;
any other error code fails immediately.  `none` means no terminal outcome
was reached within the supplied ticks (the source loop keeps polling). -/
def setupPollLoop : List PollResult → Nat → Option ((Except Str Str) × Nat)
  | [], _ => none
  | p :: rest, n =>
    match p with
    | PollResult.reqError => setupPollLoop rest (n + 1)
    | PollResult.parseError => setupPollLoop rest (n + 1)
    | PollResult.resp r =>
      match r.accessToken with
      | some tok => some (Except.ok tok, n + 1)
      | none =>
        match r.error with
        | some e =>
          if e = "authorization_pending".toList then
            setupPollLoop rest (n + 1)
          else
            some (Except.error ("authentication error: ".toList ++ e), n + 1)
        | none => setupPollLoop rest (n + 1)

/-! ## Model discovery (`internal/copilot/models.go`) -/

/-- Model of `ModelInfo` (client.go:22).  The `Permission []interface\x7b\x7d`
field is an opaque JSON list never read by the core logic and is omitted. -/
structure ModelInfo where
  id : Str
  object : Str
  created : Int
  ownedBy : Str
  root : Str
  parent : Option Str
deriving DecidableEq

/-- Result of `tryModelsEndpoint` for one candidate endpoint: a request or
parse error, or a parsed model list. -/
inductive EndpointResult where
  | err
  | models (ms : List ModelInfo)

/-- Whether the endpoint-loop condition `err == nil && len(models) > 0`
accepts this candidate's result. -/
def endpointYields : EndpointResult → Bool
  | EndpointResult.err => false
  | EndpointResult.models ms => ms.length > 0

/-- Model of `deduplicateModels` (models.go:162): walk the list keeping a
`seen` set of identifiers and appending each model whose identifier is
unseen. -/
def deduplicateModelsAux (seen : List Str) : List ModelInfo → List ModelInfo
  | [] => []
  | m :: rest =>
    if m.id ∈ seen then
      deduplicateModelsAux seen rest
    else
      m :: deduplicateModelsAux (m.id :: seen) rest

/-- Model of `deduplicateModels`: the walk started with the empty `seen` map. -/
def deduplicateModels (ms : List ModelInfo) : List ModelInfo :=
  deduplicateModelsAux [] ms

/-- The endpoint loop of `fetchModelsFromMultipleSources` (models.go:70-83)
over the ordered candidates' results: the first candidate accepted by
`err == nil && len(models) > 0` returns its deduplicated list; if every
candidate is rejected the function returns the "no models available from
any server endpoint" error, modelled as `none`. -/
def fetchModelsLoop : List EndpointResult → Option (List ModelInfo)
  | [] => none
  | r :: rest =>
    match r with
    | EndpointResult.models ms =>
      if ms.length > 0 then some (deduplicateModels ms) else fetchModelsLoop rest
    | EndpointResult.err => fetchModelsLoop rest

/-! ## Specification-side definitions

These are written from the specification's words, for comparison against
the source-derived definitions above. -/

/-- Spec-side first-occurrence deduplication: keep each element whose
identifier has not occurred earlier, preserving order ("keeping first
occurrence and its relative order"). -/
def firstOccurrenceDedup : List ModelInfo → List ModelInfo
  | [] => []
  | m :: rest => m :: firstOccurrenceDedup (rest.filter (fun x => x.id ≠ m.id))
termination_by ms => ms.length
decreasing_by
  exact Nat.lt_succ_of_le (List.length_filter_le _ _)

/-- The `authorization_pending` poll response of the device flow. -/
def pendingPoll : PollResult :=
  PollResult.resp { accessToken := none, error := some "authorization_pending".toList }

/-! ## Helper lemmas -/

/-- Folding append over a list equals the accumulator followed by the
joined per-element contributions. -/
theorem foldl_append_eq_join (f : Str → Str) (l : List Str) (acc : Str) :
    l.foldl (fun a x => a ++ f x) acc = acc ++ (l.map f).flatten := by
  induction l generalizing acc with
  | nil => simp
  | cons x xs ih => simp [ih, List.append_assoc]

/-- The seen-set walk of `deduplicateModels` computes first-occurrence
deduplication of the models whose identifier is not already seen. -/
theorem deduplicateModelsAux_eq (ms : List ModelInfo) (seen : List Str) :
    deduplicateModelsAux seen ms =
      firstOccurrenceDedup (ms.filter (fun x => x.id ∉ seen)) := by
  induction ms generalizing seen with
  | nil => simp [deduplicateModelsAux, firstOccurrenceDedup]
  | cons m rest ih =>
    by_cases h : m.id ∈ seen
    · have hf : List.filter (fun x => decide (x.id ∉ seen)) (m :: rest) =
          List.filter (fun x => decide (x.id ∉ seen)) rest := by
        simp [List.filter_cons, h]
      simp only [deduplicateModelsAux, if_pos h, hf, ih]
    · have hf : List.filter (fun x => decide (x.id ∉ seen)) (m :: rest) =
          m :: List.filter (fun x => decide (x.id ∉ seen)) rest := by
        simp [List.filter_cons, h]
      simp only [deduplicateModelsAux, if_neg h, hf, firstOccurrenceDedup, ih]
      congr 1
      rw [List.filter_filter]
      congr 1
      apply List.filter_congr
      intro x _
      by_cases hx : x.id = m.id <;> by_cases hx2 : x.id ∈ seen <;> simp [hx, hx2]

/-- Elements produced by the seen-set walk have unseen identifiers and the
produced identifier list has no duplicates. -/
theorem deduplicateModelsAux_nodup (ms : List ModelInfo) (seen : List Str) :
    ((deduplicateModelsAux seen ms).map (fun m => m.id)).Nodup ∧
    ∀ m ∈ deduplicateModelsAux seen ms, m.id ∉ seen := by
  induction ms generalizing seen with
  | nil => simp [deduplicateModelsAux]
  | cons m rest ih =>
    by_cases h : m.id ∈ seen
    · simpa [deduplicateModelsAux, if_pos h] using ih seen
    · have ihm := ih (m.id :: seen)
      refine ⟨?_, ?_⟩
      · simp only [deduplicateModelsAux, if_neg h, List.map_cons, List.nodup_cons]
        refine ⟨?_, ihm.1⟩
        intro hmem
        rcases List.mem_map.mp hmem with ⟨x, hx, hid⟩
        exact ihm.2 x hx (by simp [hid])
      · intro x hx
        simp only [deduplicateModelsAux, if_neg h, List.mem_cons] at hx
        rcases hx with rfl | hx
        · exact h
        · have hx2 := ihm.2 x hx
          intro hmem
          exact hx2 (List.mem_cons.mpr (Or.inr hmem))

/-- Identifier membership in the seen-set walk's output. -/
theorem deduplicateModelsAux_mem (ms : List ModelInfo) (seen : List Str) (s : Str) :
    s ∈ (deduplicateModelsAux seen ms).map (fun m => m.id) ↔
      s ∈ ms.map (fun m => m.id) ∧ s ∉ seen := by
  induction ms generalizing seen with
  | nil => simp [deduplicateModelsAux]
  | cons m rest ih =>
    by_cases h : m.id ∈ seen
    · simp only [deduplicateModelsAux, if_pos h, List.map_cons, List.mem_cons, ih]
      by_cases hsm : s = m.id <;> aesop
    · simp only [deduplicateModelsAux, if_neg h, List.map_cons, List.mem_cons, ih,
        List.mem_cons]
      by_cases hsm : s = m.id <;> aesop

/-- Before a successful terminal poll, a run of `authorization_pending`
responses only advances the poll counter. -/
theorem setupPollLoop_replicate_pending (n : Nat) (l : List PollResult) (k : Nat) :
    setupPollLoop (List.replicate n pendingPoll ++ l) k = setupPollLoop l (k + n) := by
  induction n generalizing k with
  | zero => simp
  | succ n ih =>
    have : setupPollLoop (pendingPoll :: (List.replicate n pendingPoll ++ l)) k =
        setupPollLoop (List.replicate n pendingPoll ++ l) (k + 1) := by
      simp [setupPollLoop, pendingPoll]
    rw [List.replicate_succ, List.cons_append, this, ih]
    congr 1
    omega

/-! ## Claim theorems -/

/-- C9 (confirmed): `deduplicateModels` computes first-occurrence
deduplication — it equals the spec-side `firstOccurrenceDedup` (keeping
for each identifier its first occurrence, in the relative order of first
occurrences), its output identifiers contain no duplicates (each
identifier exactly once), and an identifier occurs in the output iff it
occurs in the input. -/
theorem deduplicateModels_first_occurrence (ms : List ModelInfo) :
    deduplicateModels ms = firstOccurrenceDedup ms ∧
    ((deduplicateModels ms).map (fun m => m.id)).Nodup ∧
    ∀ s : Str, s ∈ (deduplicateModels ms).map (fun m => m.id) ↔
      s ∈ ms.map (fun m => m.id) := by
  refine ⟨?_, ?_, ?_⟩
  · rw [deduplicateModels, deduplicateModelsAux_eq]
    congr 1
    apply List.filter_eq_self.mpr
    intro a _
    simp
  · exact (deduplicateModelsAux_nodup ms []).1
  · intro s
    rw [deduplicateModels, deduplicateModelsAux_mem]
    simp

/-- C10 (confirmed): with an empty stored session credential or no
recorded expiry, `isTokenValid` reports the credential invalid, for every
current instant — so the first use after startup always triggers
acquisition. -/
theorem isTokenValid_false_of_unset (now : Int) (st : SessionState)
    (h : st.sessionToken = [] ∨ st.expiresAt = none) :
    isTokenValid now st = false := by
  rcases h with h | h <;> simp [isTokenValid, h]

/-- Witness for C10: the startup state (empty credential, no expiry) is
reported invalid, and so is a non-empty credential with no expiry. -/
theorem isTokenValid_false_of_unset_witness :
    isTokenValid 0 { sessionToken := [], expiresAt := none } = false ∧
    isTokenValid 0 { sessionToken := "t".toList, expiresAt := none } = false :=
  ⟨isTokenValid_false_of_unset 0 _ (Or.inl rfl),
   isTokenValid_false_of_unset 0 _ (Or.inr rfl)⟩

/-- C6 (confirmed): in the endpoint loop of
`fetchModelsFromMultipleSources`, the first candidate whose result passes
`err == nil && len(models) > 0` determines the entire result — its
deduplicated list alone — and the result is independent of every later
candidate (formally: the loop's value on `pre ++ hit :: post` equals its
value on `pre ++ [hit]`, so later candidates are never consulted and no
merging across endpoints occurs). -/
theorem fetchModels_first_nonempty_wins (pre post : List EndpointResult)
    (ms : List ModelInfo) (hpre : ∀ r ∈ pre, endpointYields r = false)
    (hms : ms ≠ []) :
    fetchModelsLoop (pre ++ EndpointResult.models ms :: post) =
      some (deduplicateModels ms) ∧
    fetchModelsLoop (pre ++ EndpointResult.models ms :: post) =
      fetchModelsLoop (pre ++ [EndpointResult.models ms]) := by
  induction pre with
  | nil =>
    have hlen : ms.length > 0 := List.length_pos.mpr hms
    constructor <;> simp [fetchModelsLoop, hlen]
  | cons r pre' ih =>
    have hr := hpre r (List.mem_cons_self r pre')
    have hpre' : ∀ x ∈ pre', endpointYields x = false := by
      intro x hx
      exact hpre x (List.mem_cons_of_mem _ hx)
    have ih' := ih hpre'
    cases r with
    | err => simpa [fetchModelsLoop] using ih'
    | models l =>
      have hl : ¬ l.length > 0 := by
        simpa [endpointYields] using hr
      simpa [fetchModelsLoop, hl] using ih'

/-- Witness for C6: with two non-yielding candidates before it, the third
candidate's singleton list wins, deduplicated, and the trailing candidate
changes nothing. -/
theorem fetchModels_first_nonempty_wins_witness :
    fetchModelsLoop [EndpointResult.err, EndpointResult.models [],
        EndpointResult.models
          [⟨"m0".toList, "model".toList, 0, "github".toList, "m0".toList, none⟩],
        EndpointResult.models
          [⟨"m1".toList, "model".toList, 1, "github".toList, "m1".toList, none⟩]] =
      some [⟨"m0".toList, "model".toList, 0, "github".toList, "m0".toList, none⟩] := by
  have h := fetchModels_first_nonempty_wins
    [EndpointResult.err, EndpointResult.models []]
    [EndpointResult.models
      [⟨"m1".toList, "model".toList, 1, "github".toList, "m1".toList, none⟩]]
    [⟨"m0".toList, "model".toList, 0, "github".toList, "m0".toList, none⟩]
    (by
      intro r hr
      rcases List.mem_cons.mp hr with h | h
      · subst h; rfl
      · rcases List.mem_singleton.mp h with rfl; rfl)
    (by simp)
  exact h.1.trans (by rfl)

/-- C8 (confirmed): in the `Setup` polling loop, `n` successive
`authorization_pending` responses followed by a response carrying an
access credential yield success with exactly that credential after
exactly `n + 1` polls (whatever would come later); and any error code
other than `authorization_pending` on the first poll fails immediately —
one poll, terminal error, no further polling. -/
theorem setup_poll_pending_then_success (n : Nat) (tok : Str)
    (rest rest2 : List PollResult) (e : Str)
    (he : e ≠ "authorization_pending".toList) :
    setupPollLoop (List.replicate n pendingPoll ++
        PollResult.resp ⟨some tok, none⟩ :: rest) 0 =
      some (Except.ok tok, n + 1) ∧
    setupPollLoop (PollResult.resp ⟨none, some e⟩ :: rest2) 0 =
      some (Except.error ("authentication error: ".toList ++ e), 1) := by
  constructor
  · rw [setupPollLoop_replicate_pending]
    simp [setupPollLoop]
  · simp only [setupPollLoop]
    rw [if_neg he]

/-- Witness for C8: two pending responses then a credential succeed at the
third poll; `access_denied` on the first poll fails at once. -/
theorem setup_poll_pending_then_success_witness :
    setupPollLoop (List.replicate 2 pendingPoll ++
        PollResult.resp ⟨some "T".toList, none⟩ :: []) 0 =
      some (Except.ok "T".toList, 3) ∧
    setupPollLoop (PollResult.resp ⟨none, some "access_denied".toList⟩ :: []) 0 =
      some (Except.error "authentication error: access_denied".toList, 1) := by
  have h := setup_poll_pending_then_success 2 "T".toList [] []
    "access_denied".toList (by decide)
  exact ⟨h.1, h.2.trans (by rfl)⟩

/-- C5 (confirmed): `parseStreamingResponse` returns the in-order
concatenation of the per-line contributions — the `choices[0].text` of
each "data: "-marked line whose payload decodes, with undecodable lines
contributing nothing and the empty string (not an error) when no line
contributes — and on the three-line example with a garbage middle line it
returns "abcd". -/
theorem parseStreamingResponse_concat_spec :
    (∀ s : Str, parseStreamingResponse s =
      ((goSplit '\n' s).map streamChunkText).flatten) ∧
    parseStreamingResponse
        ("data: \x7b\"choices\":[\x7b\"text\":\"ab\"\x7d]\x7d\ngarbage\ndata: \x7b\"choices\":[\x7b\"text\":\"cd\"\x7d]\x7d\n".toList) =
      "abcd".toList := by
  constructor
  · intro s
    rw [parseStreamingResponse, foldl_append_eq_join]
    rfl
  · decide

/-- C7 (confirmed): a prompt longer than the configured maximum makes
`GetCompletion` fail with the Validation error immediately — zero
upstream requests (no completion call and no session-token acquisition)
and the stored credential pair unchanged — whatever the credential state,
clock and upstream behaviour. -/
theorem getCompletion_long_prompt_validation (maxPromptLength : Nat)
    (st : SessionState) (now : Int) (req : CompletionRequest)
    (tokenResp : Nat → ExchangeResult) (completionResp : ExchangeResult)
    (h : utf8Len req.prompt > maxPromptLength) :
    GetCompletionGo maxPromptLength st now req tokenResp completionResp =
      (Except.error (NewValidationError
        ("Prompt too long: ".toList ++ (toString (utf8Len req.prompt)).toList ++
         " characters (max: ".toList ++ (toString maxPromptLength).toList ++
         ")".toList)), st, 0) := by
  rw [GetCompletionGo, if_pos h]

/-- Witness for C7: a four-byte prompt against a three-byte maximum is
rejected as Validation with no network call and unchanged state. -/
theorem getCompletion_long_prompt_validation_witness :
    GetCompletionGo 3 { sessionToken := "live".toList, expiresAt := some 90 } 0
        { prompt := "abcd".toList, language := [], maxTokens := 0, temperature := 0 }
        (fun _ => ExchangeResult.reqError []) (ExchangeResult.reqError []) =
      (Except.error (NewValidationError
        "Prompt too long: 4 characters (max: 3)".toList),
       { sessionToken := "live".toList, expiresAt := some 90 }, 0) := by
  have h := getCompletion_long_prompt_validation 3
    { sessionToken := "live".toList, expiresAt := some 90 } 0
    { prompt := "abcd".toList, language := [], maxTokens := 0, temperature := 0 }
    (fun _ => ExchangeResult.reqError []) (ExchangeResult.reqError []) (by decide)
  exact h.trans (by rfl)

/-- C1 (code bug): when both expiry-extraction tiers fail, `GetSessionToken`
does not record "now + fallback lifetime" — it leaves the stored expiry
unchanged (here: absent).  The config constant
`DefaultTokenLifetimeSeconds` ("25 minutes fallback") exists but is never
applied.  Evaluated at a token on which the three-segment decode and the
legacy scan both fail: the acquired state carries the new credential with
no recorded expiry instant at all. -/
theorem getSessionToken_no_fallback_lifetime :
    extractExpFromJWT "notajwt".toList = none ∧
    extractExpValueLegacy "notajwt".toList = none ∧
    (getSessionTokenGo { sessionToken := [], expiresAt := none }
        (fun _ => ExchangeResult.ok "\x7b\"token\":\"notajwt\"\x7d".toList)).1 =
      TokenOutcome.success { sessionToken := "notajwt".toList, expiresAt := none } := by
  refine ⟨by decide, by decide, by decide⟩

/-- Counterexample for C2: acquiring a credential whose expiry cannot be
extracted, from a state holding a previous credential and its expiry,
stores the new session credential paired with the previous credential's
expiry — an observable mixed pair, refuting "never individually". -/
theorem getSessionToken_stale_pair_counterexample :
    (getSessionTokenGo { sessionToken := "tokA".toList, expiresAt := some 999 }
        (fun _ => ExchangeResult.ok "\x7b\"token\":\"notajwt\"\x7d".toList)).1 =
      TokenOutcome.success { sessionToken := "notajwt".toList, expiresAt := some 999 } ∧
    ("notajwt".toList : Str) ≠ "tokA".toList := by
  refine ⟨by decide, by decide⟩

/-- C2 (corrected): the session credential and expiry are written together
under the exclusive lock (one combined state update per acquisition), but
the expiry half is replaced only when extraction succeeds: a successful
acquisition stores the new credential with the extracted expiry when
extraction yields one, and with the previously recorded expiry when it
does not. -/
theorem getSessionToken_pair_update (st : SessionState)
    (resp : Nat → ExchangeResult) (body token : Str)
    (h1 : resp 0 = ExchangeResult.ok body)
    (h2 : goUnmarshalSessionTokenResponse body = some token) :
    (extractExpFromJWT token = none →
      (getSessionTokenGo st resp).1 =
        TokenOutcome.success { sessionToken := token, expiresAt := st.expiresAt }) ∧
    ∀ e : Int, extractExpFromJWT token = some e →
      (getSessionTokenGo st resp).1 =
        TokenOutcome.success { sessionToken := token, expiresAt := some e } := by
  constructor
  · intro hnone
    simp [getSessionTokenGo, getSessionTokenLoop, h1, h2, hnone]
  · intro e he
    simp [getSessionTokenGo, getSessionTokenLoop, h1, h2, he]

/-- Witness for C2's amended theorem: a concrete acquisition whose token
yields no expiry keeps the prior recorded expiry next to the new token. -/
theorem getSessionToken_pair_update_witness :
    (getSessionTokenGo { sessionToken := "old".toList, expiresAt := some 7 }
        (fun _ => ExchangeResult.ok "\x7b\"token\":\"notajwt\"\x7d".toList)).1 =
      TokenOutcome.success { sessionToken := "notajwt".toList, expiresAt := some 7 } :=
  (getSessionToken_pair_update { sessionToken := "old".toList, expiresAt := some 7 }
    (fun _ => ExchangeResult.ok "\x7b\"token\":\"notajwt\"\x7d".toList)
    "\x7b\"token\":\"notajwt\"\x7d".toList "notajwt".toList rfl (by decide)).1 (by decide)

/-- C3 (code bug): the "retry loop" of `GetSessionToken` surfaces the very
first transient exchange failure after exactly one attempt — it never
retries, although a second attempt would have returned a parseable
session token (second conjunct). -/
theorem getSessionToken_no_retry :
    getSessionTokenGo { sessionToken := [], expiresAt := none }
        (fun n => if n = 0 then ExchangeResult.reqError "tls handshake timeout".toList
                  else ExchangeResult.ok "\x7b\"token\":\"t\"\x7d".toList) =
      (TokenOutcome.failure
        "session token request failed: tls handshake timeout".toList, 1) ∧
    goUnmarshalSessionTokenResponse "\x7b\"token\":\"t\"\x7d".toList =
      some "t".toList := by
  refine ⟨by decide, by decide⟩

/-- Counterexample for C4: the token "a.e30.c" has three segments and its
middle segment decodes to the JSON structure without an expiry field;
extraction returns the zero `Exp` (the Unix epoch, `some 0`) instead of
falling back to the legacy scan (which would yield `none` here). -/
theorem extractExp_missing_field_counterexample :
    extractExpFromJWT "a.e30.c".toList = some 0 ∧
    extractExpValueLegacy "a.e30.c".toList = none := by
  refine ⟨by decide, by decide⟩

/-- C4 (corrected): tier structure of expiry extraction.  With three
dot-separated segments whose padded middle segment base64url-decodes to
bytes that unmarshal as the claims structure, extraction returns exactly
the unmarshalled expiry (`claims.Exp`; the `exp` field's value, or 0 when
the field is absent — not the legacy fallback).  The legacy key=value
scan is used exactly on wrong segment count, base64 decode failure, or
claims-unmarshal failure. -/
theorem extractExp_tier_structure (t : Str) :
    ((goSplit '.' t).length ≠ 3 → extractExpFromJWT t = extractExpValueLegacy t) ∧
    ∀ p0 p1 p2, goSplit '.' t = [p0, p1, p2] →
      (base64UrlDecodeGo (addB64Padding p1) = none →
        extractExpFromJWT t = extractExpValueLegacy t) ∧
      ∀ bs, base64UrlDecodeGo (addB64Padding p1) = some bs →
        (goUnmarshalJWTClaims bs = none →
          extractExpFromJWT t = extractExpValueLegacy t) ∧
        ∀ e : Int, goUnmarshalJWTClaims bs = some e →
          extractExpFromJWT t = some e := by
  constructor
  · intro hlen
    unfold extractExpFromJWT
    split
    · rename_i p0 p1 p2 heq
      exact absurd (by rw [heq]; rfl) hlen
    · rfl
  · intro p0 p1 p2 heq
    refine ⟨?_, ?_⟩
    · intro hdec
      simp [extractExpFromJWT, heq, hdec]
    · intro bs hbs
      refine ⟨?_, ?_⟩
      · intro hnone
        simp [extractExpFromJWT, heq, hbs, hnone]
      · intro e he
        simp [extractExpFromJWT, heq, hbs, he]

/-- Witness for C4's amended theorem: "a.eyJleHAiOjEyM30.c" carries the
structure with expiry field 123 in its middle segment, and extraction
returns exactly 123. -/
theorem extractExp_tier_structure_witness :
    extractExpFromJWT "a.eyJleHAiOjEyM30.c".toList = some 123 :=
  ((((extractExp_tier_structure "a.eyJleHAiOjEyM30.c".toList).2
      "a".toList "eyJleHAiOjEyM30".toList "c".toList (by decide)).2
      [123, 34, 101, 120, 112, 34, 58, 49, 50, 51, 125] (by decide)).2
      123 (by decide))
